import Mathlib

set_option maxRecDepth 8000

/-!
Shallow embedding of the persistent FinTech dashboard (src/app.py): the
credential store persisted in users.json, the load/save functions, the
login handler (password + TOTP), the Transfer Money and Approve Transfer
button handlers, the provisioning URI, and the TOTP code computation
(base32 secret decoding, HMAC-SHA1, dynamic truncation) used by the
verifier.  Machine integers are modelled as Nat/Int; fresh random OTP
secrets (pyotp.random_base32) are modelled by an explicit supply of
strings consumed in order; the current time is an explicit Nat of unix
seconds.
-/

/-- Account record as stored in users.json (src/app.py lines 31-35):
password, role (the string "Customer" or "Admin"), balance (absent for
Admin accounts), and the OTP secret (absent entries are backfilled by
load_users). -/
structure Account where
  password : String
  role : String
  balance : Option Int
  secret : Option String
deriving DecidableEq

/-- The user store: an association list username to account, mirroring the
Python dict USERS (insertion ordered, unique keys). -/
abbrev Store := List (String × Account)

/-- Python membership and indexing on the USERS dict: the first binding of
the key, none when the key is absent (a KeyError in Python). -/
def findUser (s : Store) (u : String) : Option Account :=
  match s with
  | [] => none
  | (k, a) :: rest => if k = u then some a else findUser rest u

/-- Python USERS[u]["balance"]: none models the KeyError raised when the
user is absent or the record has no balance field (Admin accounts). -/
def getBalance (s : Store) (u : String) : Option Int :=
  match findUser s u with
  | none => none
  | some a => a.balance

/-- Assignment USERS[u]["balance"] = v: rewrite the balance field of the
entry for key u, leaving every other field and entry unchanged. -/
def setBalance (s : Store) (u : String) (v : Int) : Store :=
  s.map (fun p => if p.1 = u then (p.1, { p.2 with balance := some v }) else p)

/-- State of the persisted users.json file: missing or empty, present but
unparseable, or a parsed store. -/
inductive DiskState
  | missing
  | corrupt
  | stored (users : Store)
deriving DecidableEq

/-- save_users (src/app.py lines 23-25): write the full mapping to
users.json, replacing whatever was there. -/
def save_users (users : Store) : DiskState := .stored users

/-- The seeded default accounts (src/app.py lines 31-35), with the three
freshly generated OTP secrets passed in explicitly. -/
def defaultUsers (s1 s2 s3 : String) : Store :=
  [ ("customer1", ⟨"secure123", "Customer", some 1500, some s1⟩),
    ("customer2", ⟨"wallet321", "Customer", some 3200, some s2⟩),
    ("admin1", ⟨"adminpass", "Admin", none, some s3⟩) ]

/-- The backfill loop of load_users (src/app.py lines 43-47): walk the
entries in order and give each entry lacking an OTP secret the next fresh
secret from the supply; the Bool records whether anything changed.  The
counter i is the number of fresh secrets already consumed. -/
def backfill (fresh : Nat → String) : Store → Nat → Store × Bool
  | [], _ => ([], false)
  | (u, a) :: rest, i =>
    match a.secret with
    | some _ =>
      let r := backfill fresh rest i
      ((u, a) :: r.1, r.2)
    | none =>
      let r := backfill fresh rest (i + 1)
      ((u, { a with secret := some (fresh i) }) :: r.1, true)

/-- load_users (src/app.py lines 28-58): a missing or empty file, or a
corrupt one, seeds the default accounts and persists them; otherwise the
parsed entries are backfilled with missing OTP secrets and persisted
exactly when something changed.  Returns the in-memory store together
with the resulting file state. -/
def load_users (d : DiskState) (fresh : Nat → String) : Store × DiskState :=
  match d with
  | .missing =>
    let users := defaultUsers (fresh 0) (fresh 1) (fresh 2)
    (users, save_users users)
  | .corrupt =>
    let users := defaultUsers (fresh 0) (fresh 1) (fresh 2)
    (users, save_users users)
  | .stored users =>
    let r := backfill fresh users 0
    (r.1, if r.2 then save_users r.1 else d)

/-- The in-memory store together with the persisted file. -/
structure World where
  mem : Store
  disk : DiskState
deriving DecidableEq

/-- Outcome of a balance-mutating button handler.  keyError models a
Python KeyError escaping the handler (absent account or balance field). -/
inductive TransferResult
  | ok
  | insufficientFunds
  | keyError
deriving DecidableEq

/-- The Transfer Money handler (src/app.py lines 142-149): when the amount
is at most the sender balance, debit the sender, credit the recipient and
persist the whole store; otherwise report insufficient funds and change
nothing.  A missing recipient balance raises after the debit, before any
save. -/
def transferMoney (w : World) (sender recipient : String) (amount : Int) :
    World × TransferResult :=
  match getBalance w.mem sender with
  | none => (w, .keyError)
  | some b =>
    if amount ≤ b then
      let m1 := setBalance w.mem sender (b - amount)
      match getBalance m1 recipient with
      | none => ({ w with mem := m1 }, .keyError)
      | some b2 =>
        let m2 := setBalance m1 recipient (b2 + amount)
        ({ mem := m2, disk := save_users m2 }, .ok)
    else (w, .insufficientFunds)

/-- The Approve Transfer handler (src/app.py lines 167-174): identical
debit, credit and persist logic applied to the pending request record,
guarded by the sender balance being at least the requested amount. -/
def approveTransfer (w : World) (src dst : String) (amount : Int) :
    World × TransferResult :=
  match getBalance w.mem src with
  | none => (w, .keyError)
  | some b =>
    if b ≥ amount then
      let m1 := setBalance w.mem src (b - amount)
      match getBalance m1 dst with
      | none => ({ w with mem := m1 }, .keyError)
      | some b2 =>
        let m2 := setBalance m1 dst (b2 + amount)
        ({ mem := m2, disk := save_users m2 }, .ok)
    else (w, .insufficientFunds)

/-- Sum of the balances of all Customer accounts of the store (an Admin
entry contributes nothing). -/
def sumCustomerBalances (s : Store) : Int :=
  match s with
  | [] => 0
  | (_, a) :: rest =>
    (if a.role = "Customer" then a.balance.getD 0 else 0) + sumCustomerBalances rest

/-- A balance-mutating operation: a customer-initiated transfer or an
admin approval of a pending request. -/
inductive Op
  | transfer (sender recipient : String) (amount : Int)
  | approve (src dst : String) (amount : Int)
deriving DecidableEq

/-- Dispatch an operation to the corresponding button handler. -/
def applyOp (w : World) : Op → World × TransferResult
  | .transfer s r a => transferMoney w s r a
  | .approve s d a => approveTransfer w s d a

/-- The debited and credited account named by an operation. -/
def Op.parties : Op → String × String
  | .transfer s r _ => (s, r)
  | .approve s d _ => (s, d)

/-- The account u exists in s with role Customer. -/
def isCustomer (s : Store) (u : String) : Prop :=
  ∃ a, findUser s u = some a ∧ a.role = "Customer"

/-- A run of operations, each of which succeeds and moves money between
accounts that are Customers of the store it acts on. -/
inductive RunOk : World → List Op → World → Prop
  | nil (w : World) : RunOk w [] w
  | cons (w w1 w2 : World) (op : Op) (ops : List Op)
      (hsucc : applyOp w op = (w1, .ok))
      (hsender : isCustomer w.mem op.parties.1)
      (hrecip : isCustomer w.mem op.parties.2)
      (hrest : RunOk w1 ops w2) : RunOk w (op :: ops) w2

/-- Every Customer balance present in the store is non-negative. -/
def NonNeg (s : Store) : Prop :=
  ∀ p ∈ s, p.2.role = "Customer" → ∀ b, p.2.balance = some b → 0 ≤ b

/-- Result of the Login handler.  keyError models a KeyError on a record
with no secret field (impossible after load_users). -/
inductive LoginResult
  | success (user role : String)
  | invalidOTP
  | invalidCredentials
  | keyError
deriving DecidableEq

/-- The Login handler (src/app.py lines 109-123): unknown username or
password mismatch reject as invalid credentials; otherwise the OTP
verifier runs on that account's secret and the submitted code, and a
mismatch rejects as invalid OTP.  The time-dependent pyotp verification
is abstracted as the Boolean function vf of the secret and the submitted
code; totpVerify below is its concrete instance at a fixed time. -/
def login (users : Store) (username password otp : String)
    (vf : String → String → Bool) : LoginResult :=
  match findUser users username with
  | none => .invalidCredentials
  | some a =>
    if password = a.password then
      match a.secret with
      | none => .keyError
      | some s => if vf s otp then .success username a.role else .invalidOTP
    else .invalidCredentials

/-- One Streamlit interaction that presses Login: the script reruns from
the top, so USERS = load_users() (src/app.py line 61) is read back from
the persisted file, and the Login handler then runs on that freshly
loaded store. -/
def loginInteraction (d : DiskState) (fresh : Nat → String)
    (username password otp : String) (vf : String → String → Bool) : LoginResult :=
  login (load_users d fresh).1 username password otp vf

/-- Hexadecimal digit character for a value below 16, upper case. -/
def hexDigit (n : Nat) : Char :=
  if n < 10 then Char.ofNat (48 + n) else Char.ofNat (55 + n)

/-- Percent-encoding of one ASCII character as in urllib quote: unreserved
characters and the slash pass through, everything else becomes %XX. -/
def quoteChar (c : Char) : List Char :=
  let n := c.toNat
  if (65 ≤ n ∧ n ≤ 90) ∨ (97 ≤ n ∧ n ≤ 122) ∨ (48 ≤ n ∧ n ≤ 57) ∨
      n = 45 ∨ n = 46 ∨ n = 95 ∨ n = 126 ∨ n = 47 then [c]
  else ['%', hexDigit (n / 16 % 16), hexDigit (n % 16)]

/-- Percent-encode a whole string. -/
def quoteStr (s : String) : String :=
  String.mk (s.data.flatMap quoteChar)

/-- provisioning_uri (src/app.py lines 98-100): the otpauth URI built by
pyotp for label username@fintechdemo.com and issuer FinTech Demo App,
with label and issuer percent-encoded and the secret passed through. -/
def provisioning_uri (username secret : String) : String :=
  "otpauth://totp/" ++ quoteStr "FinTech Demo App" ++ ":" ++
    quoteStr (username ++ "@fintechdemo.com") ++
    "?secret=" ++ secret ++ "&issuer=" ++ quoteStr "FinTech Demo App"

/-- Truncation to a 32-bit word. -/
def w32 (x : Nat) : Nat := x % 4294967296

/-- Left rotation of a 32-bit word by n bits. -/
def rotl32 (n x : Nat) : Nat :=
  w32 (x <<< n) ||| (x >>> (32 - n))

/-- Big-endian bytes of x on k bytes. -/
def natToBytes : Nat → Nat → List Nat
  | 0, _ => []
  | k + 1, x => natToBytes k (x / 256) ++ [x % 256]

/-- Group bytes four at a time into big-endian 32-bit words. -/
def bytesToWords : List Nat → List Nat
  | b0 :: b1 :: b2 :: b3 :: rest =>
    (b0 * 16777216 + b1 * 65536 + b2 * 256 + b3) :: bytesToWords rest
  | _ => []

/-- SHA-1 message padding: append the 0x80 byte, zeros up to 56 mod 64,
and the 64-bit big-endian bit length. -/
def sha1Pad (msg : List Nat) : List Nat :=
  msg ++ [128] ++ List.replicate ((119 - msg.length % 64) % 64) 0 ++
    natToBytes 8 (msg.length * 8)

/-- Split a byte list into 64-byte blocks (fuel-driven structural
recursion; the fuel is an upper bound on the number of blocks). -/
def chunks64 : Nat → List Nat → List (List Nat)
  | 0, _ => []
  | _, [] => []
  | f + 1, l => l.take 64 :: chunks64 f (l.drop 64)

/-- Extend the sixteen words of a block to the eighty words of the SHA-1
message schedule (the fuel counts the words still to add). -/
def sha1Extend (ws : List Nat) : Nat → List Nat
  | 0 => ws
  | f + 1 =>
    let n := ws.length
    let w := rotl32 1 (ws.getD (n - 3) 0 ^^^ ws.getD (n - 8) 0 ^^^
      ws.getD (n - 14) 0 ^^^ ws.getD (n - 16) 0)
    sha1Extend (ws ++ [w]) f

/-- The SHA-1 round function for round i. -/
def sha1F (i b c d : Nat) : Nat :=
  if i < 20 then (b &&& c) ||| ((b ^^^ 4294967295) &&& d)
  else if i < 40 then b ^^^ c ^^^ d
  else if i < 60 then (b &&& c) ||| (b &&& d) ||| (c &&& d)
  else b ^^^ c ^^^ d

/-- The SHA-1 round constant for round i. -/
def sha1K (i : Nat) : Nat :=
  if i < 20 then 1518500249
  else if i < 40 then 1859775393
  else if i < 60 then 2400959708
  else 3395469782

/-- The eighty SHA-1 rounds over the scheduled words. -/
def sha1Loop : List Nat → Nat → Nat × Nat × Nat × Nat × Nat → Nat × Nat × Nat × Nat × Nat
  | [], _, st => st
  | w :: rest, i, (a, b, c, d, e) =>
    let t := w32 (rotl32 5 a + sha1F i b c d + e + sha1K i + w)
    sha1Loop rest (i + 1) (t, a, rotl32 30 b, c, d)

/-- One SHA-1 compression over a 64-byte block. -/
def sha1Block (st : Nat × Nat × Nat × Nat × Nat) (block : List Nat) :
    Nat × Nat × Nat × Nat × Nat :=
  let ws := sha1Extend (bytesToWords block) 64
  let r := sha1Loop ws 0 st
  (w32 (st.1 + r.1), w32 (st.2.1 + r.2.1), w32 (st.2.2.1 + r.2.2.1),
    w32 (st.2.2.2.1 + r.2.2.2.1), w32 (st.2.2.2.2 + r.2.2.2.2))

/-- The SHA-1 digest (20 bytes) of a byte message. -/
def sha1 (msg : List Nat) : List Nat :=
  let st := (chunks64 (msg.length + 2) (sha1Pad msg)).foldl sha1Block
    (1732584193, 4023233417, 2562383102, 271733878, 3285377520)
  natToBytes 4 st.1 ++ natToBytes 4 st.2.1 ++ natToBytes 4 st.2.2.1 ++
    natToBytes 4 st.2.2.2.1 ++ natToBytes 4 st.2.2.2.2

/-- HMAC-SHA1 of a message under a key. -/
def hmacSha1 (key msg : List Nat) : List Nat :=
  let k0 := if 64 < key.length then sha1 key else key
  let k := k0 ++ List.replicate (64 - k0.length) 0
  sha1 ((k.map (fun b => b ^^^ 92)) ++ sha1 ((k.map (fun b => b ^^^ 54)) ++ msg))

/-- Value of one base32 character, case-insensitive as in the base32
decoding pyotp applies to the stored secret. -/
def b32CharVal (c : Char) : Option Nat :=
  let n := c.toNat
  if 65 ≤ n ∧ n ≤ 90 then some (n - 65)
  else if 97 ≤ n ∧ n ≤ 122 then some (n - 97)
  else if 50 ≤ n ∧ n ≤ 55 then some (n - 24)
  else none

/-- The 5-bit values of the base32 characters of the secret, up to the
first padding or invalid character. -/
def b32Vals : List Char → List Nat
  | [] => []
  | c :: rest =>
    match b32CharVal c with
    | some v => v :: b32Vals rest
    | none => []

/-- Reassemble 5-bit groups into bytes, dropping leftover bits; acc holds
bits pending bits of value. -/
def b32Bytes : List Nat → Nat → Nat → List Nat
  | [], _, _ => []
  | v :: rest, acc, bits =>
    let acc2 := acc * 32 + v
    if 8 ≤ bits + 5 then
      acc2 / 2 ^ (bits + 5 - 8) :: b32Bytes rest (acc2 % 2 ^ (bits + 5 - 8)) (bits + 5 - 8)
    else b32Bytes rest acc2 (bits + 5)

/-- The key bytes of a stored OTP secret (pyotp byte_secret: base32
decoding of the secret, case folded). -/
def byteSecret (s : String) : List Nat :=
  b32Bytes (b32Vals s.data) 0 0

/-- One HOTP value: HMAC-SHA1 of the big-endian 8-byte counter under the
key, dynamically truncated and reduced to 6 decimal digits. -/
def hotp6 (key : List Nat) (counter : Nat) : Nat :=
  let h := hmacSha1 key (natToBytes 8 counter)
  let off := h.getD 19 0 &&& 15
  ((h.getD off 0 &&& 127) * 16777216 + h.getD (off + 1) 0 * 65536 +
    h.getD (off + 2) 0 * 256 + h.getD (off + 3) 0) % 1000000

/-- Zero-pad a code to the 6-digit decimal string pyotp produces. -/
def pad6 (n : Nat) : String :=
  let s := toString n
  String.mk (List.replicate (6 - s.length) '0') ++ s

/-- The 6-digit TOTP code a given secret yields at unix time t (30-second
time steps). -/
def totpCode (secret : String) (t : Nat) : String :=
  pad6 (hotp6 (byteSecret secret) (t / 30))

/-- pyotp TOTP verify with valid_window 1 as called at src/app.py line
114: the submitted string equals the code of the previous, current or
next 30-second time step of this secret. -/
def totpVerify (secret : String) (otp : String) (t : Nat) : Bool :=
  otp == pad6 (hotp6 (byteSecret secret) (t / 30 - 1)) ||
  otp == pad6 (hotp6 (byteSecret secret) (t / 30)) ||
  otp == pad6 (hotp6 (byteSecret secret) (t / 30 + 1))

/-- Number of entries among the first i of the store that lack an OTP
secret (the rank used to pick a backfilled entry's fresh secret). -/
def missingBefore (users : Store) (i : Nat) : Nat :=
  ((users.take i).filter (fun p => p.2.secret.isNone)).length

/-- Placeholder entry used as the default of positional lookups. -/
def dummyAcc : String × Account := ("", ⟨"", "", none, none⟩)

/-- The world right after the very first run: load_users seeds the default
accounts on a missing users.json and persists them. -/
def seededWorld (fresh : Nat → String) : World :=
  ⟨(load_users .missing fresh).1, (load_users .missing fresh).2⟩

/-- Concrete seeded world used to exercise the theorems. -/
def w0x : World := seededWorld (fun _ => "SEEDA")

/-- The concrete world after transferring 500 from customer1 to customer2. -/
def w1x : World := (transferMoney w0x "customer1" "customer2" 500).1

/-- The concrete world after admin approval moves 300 back to customer1. -/
def w2x : World := (approveTransfer w1x "customer2" "customer1" 300).1

/-- A persisted store in which an operator changed customer1's role while
the process was not looking. -/
def alteredStore : Store :=
  [("customer1", ⟨"secure123", "Auditor", some 1500, some "SA"⟩)]

/-- A persisted store with one entry lacking an OTP secret and one entry
that already has one. -/
def demoStore : Store :=
  [ ("alice", ⟨"pw1", "Customer", some 10, none⟩),
    ("bob", ⟨"pw2", "Admin", none, some "KEEP"⟩) ]

/-- A concrete supply of fresh secrets. -/
def freshd : Nat → String := fun _ => "NEWSEED"

/-! ## Basic lemmas about the store operations -/

theorem setBalance_cons (k : String) (a : Account) (rest : Store) (u : String) (v : Int) :
    setBalance ((k, a) :: rest) u v =
      (if k = u then (k, { a with balance := some v }) else (k, a)) :: setBalance rest u v := by
  by_cases h : k = u <;> simp [setBalance, h]

theorem findUser_cons (k : String) (a : Account) (rest : Store) (u : String) :
    findUser ((k, a) :: rest) u = if k = u then some a else findUser rest u := rfl

theorem setBalance_keys (s : Store) (u : String) (v : Int) :
    (setBalance s u v).map Prod.fst = s.map Prod.fst := by
  induction s with
  | nil => rfl
  | cons p rest ih =>
    obtain ⟨k, a⟩ := p
    rw [setBalance_cons]
    by_cases h : k = u <;> simp [h, ih]

theorem findUser_setBalance_ne (s : Store) (u r : String) (v : Int) (h : r ≠ u) :
    findUser (setBalance s u v) r = findUser s r := by
  induction s with
  | nil => rfl
  | cons p rest ih =>
    obtain ⟨k, a⟩ := p
    rw [setBalance_cons]
    by_cases hk : k = u
    · subst hk
      rw [if_pos rfl, findUser_cons, findUser_cons,
        if_neg (fun hh => h hh.symm), if_neg (fun hh => h hh.symm), ih]
    · rw [if_neg hk]
      by_cases hr : k = r
      · rw [findUser_cons, findUser_cons, if_pos hr, if_pos hr]
      · rw [findUser_cons, findUser_cons, if_neg hr, if_neg hr, ih]

theorem findUser_setBalance_eq (s : Store) (u : String) (v : Int) :
    findUser (setBalance s u v) u =
      (findUser s u).map (fun a => { a with balance := some v }) := by
  induction s with
  | nil => rfl
  | cons p rest ih =>
    obtain ⟨k, a⟩ := p
    rw [setBalance_cons]
    by_cases hk : k = u
    · rw [if_pos hk, findUser_cons, findUser_cons, if_pos hk, if_pos hk]
      rfl
    · rw [if_neg hk, findUser_cons, findUser_cons, if_neg hk, if_neg hk, ih]

theorem getBalance_eq_some (s : Store) (u : String) (b : Int) :
    getBalance s u = some b ↔ ∃ a, findUser s u = some a ∧ a.balance = some b := by
  unfold getBalance
  cases h : findUser s u <;> simp [h]

theorem findUser_mem (s : Store) (u : String) (a : Account)
    (h : findUser s u = some a) : (u, a) ∈ s := by
  induction s with
  | nil => exact absurd h (by simp [findUser])
  | cons p rest ih =>
    obtain ⟨k, a0⟩ := p
    rw [findUser_cons] at h
    by_cases hk : k = u
    · rw [if_pos hk] at h
      obtain rfl : a0 = a := by injection h
      subst hk
      exact List.mem_cons_self _ _
    · rw [if_neg hk] at h
      exact List.mem_cons_of_mem _ (ih h)

theorem setBalance_not_mem (s : Store) (u : String) (v : Int)
    (h : u ∉ s.map Prod.fst) : setBalance s u v = s := by
  induction s with
  | nil => rfl
  | cons p rest ih =>
    obtain ⟨k, a⟩ := p
    simp only [List.map_cons, List.mem_cons] at h
    push_neg at h
    rw [setBalance_cons, if_neg (fun hh => h.1 hh.symm), ih h.2]

theorem sumCustomerBalances_cons (k : String) (a : Account) (rest : Store) :
    sumCustomerBalances ((k, a) :: rest) =
      (if a.role = "Customer" then a.balance.getD 0 else 0) + sumCustomerBalances rest := rfl

/-! ## Equation lemmas for the two button handlers -/

theorem approveTransfer_eq_transferMoney (w : World) (src dst : String) (amount : Int) :
    approveTransfer w src dst amount = transferMoney w src dst amount := rfl

theorem transferMoney_no_sender (w : World) (sndr rcpt : String) (amount : Int)
    (hb : getBalance w.mem sndr = none) :
    transferMoney w sndr rcpt amount = (w, .keyError) := by
  simp [transferMoney, hb]

theorem transferMoney_insufficient (w : World) (sndr rcpt : String) (amount : Int) (b : Int)
    (hb : getBalance w.mem sndr = some b) (hlt : ¬ amount ≤ b) :
    transferMoney w sndr rcpt amount = (w, .insufficientFunds) := by
  simp [transferMoney, hb, hlt]

theorem transferMoney_no_recipient (w : World) (sndr rcpt : String) (amount : Int) (b : Int)
    (hb : getBalance w.mem sndr = some b) (hle : amount ≤ b)
    (hb2 : getBalance (setBalance w.mem sndr (b - amount)) rcpt = none) :
    transferMoney w sndr rcpt amount =
      ({ w with mem := setBalance w.mem sndr (b - amount) }, .keyError) := by
  simp [transferMoney, hb, hle, hb2]

theorem transferMoney_success (w : World) (sndr rcpt : String) (amount : Int) (b b2 : Int)
    (hb : getBalance w.mem sndr = some b) (hle : amount ≤ b)
    (hb2 : getBalance (setBalance w.mem sndr (b - amount)) rcpt = some b2) :
    transferMoney w sndr rcpt amount =
      ({ mem := setBalance (setBalance w.mem sndr (b - amount)) rcpt (b2 + amount),
         disk := save_users (setBalance (setBalance w.mem sndr (b - amount)) rcpt (b2 + amount)) },
       .ok) := by
  simp [transferMoney, hb, hle, hb2]

/-! ## Claim C2 -/

/-- C2: whenever the sender's balance is strictly below the amount, both
the Transfer Money and the Approve Transfer handlers return the
insufficient-funds error and leave the whole world — every balance and
the persisted file — unchanged. -/
theorem C2_insufficient_frame (w : World) (sndr rcpt : String) (amount : Int)
    (a : Account) (b : Int)
    (hfind : findUser w.mem sndr = some a) (hbal : a.balance = some b)
    (hlt : b < amount) :
    transferMoney w sndr rcpt amount = (w, .insufficientFunds) ∧
    approveTransfer w sndr rcpt amount = (w, .insufficientFunds) := by
  have hb : getBalance w.mem sndr = some b := by simp [getBalance, hfind, hbal]
  have h1 := transferMoney_insufficient w sndr rcpt amount b hb (not_le.mpr hlt)
  exact ⟨h1, by rw [approveTransfer_eq_transferMoney]; exact h1⟩

theorem C2_insufficient_frame_witness :
    transferMoney w0x "customer1" "customer2" 2000 = (w0x, .insufficientFunds) ∧
    approveTransfer w0x "customer1" "customer2" 2000 = (w0x, .insufficientFunds) :=
  C2_insufficient_frame w0x "customer1" "customer2" 2000
    ⟨"secure123", "Customer", some 1500, some "SEEDA"⟩ 1500 (by decide) rfl (by decide)

/-! ## Claim C3 -/

/-- C3: starting from the seeded store (customer1 at 1500, customer2 at
3200), transferring 500 from customer1 to customer2 succeeds, leaves
customer1 at 1000 and customer2 at 3700, and a reload of the persisted
file returns exactly the resulting store, with those balances. -/
theorem C3_seeded_transfer (fresh fresh2 : Nat → String) :
    (transferMoney (seededWorld fresh) "customer1" "customer2" 500).2 = .ok ∧
    getBalance (transferMoney (seededWorld fresh) "customer1" "customer2" 500).1.mem
      "customer1" = some 1000 ∧
    getBalance (transferMoney (seededWorld fresh) "customer1" "customer2" 500).1.mem
      "customer2" = some 3700 ∧
    load_users (transferMoney (seededWorld fresh) "customer1" "customer2" 500).1.disk fresh2 =
      ((transferMoney (seededWorld fresh) "customer1" "customer2" 500).1.mem,
       (transferMoney (seededWorld fresh) "customer1" "customer2" 500).1.disk) ∧
    getBalance
      (load_users (transferMoney (seededWorld fresh) "customer1" "customer2" 500).1.disk
        fresh2).1 "customer1" = some 1000 ∧
    getBalance
      (load_users (transferMoney (seededWorld fresh) "customer1" "customer2" 500).1.disk
        fresh2).1 "customer2" = some 3700 :=
  ⟨rfl, rfl, rfl, rfl, rfl, rfl⟩

/-! ## Claim C10 -/

/-- C10: on the freshly seeded store customer1 holds 1500, while the
generated pending request asks to move at least 5000 out of customer1, so
every Approve Transfer attempt reports insufficient funds and changes
nothing. -/
theorem C10_approve_always_fails (fresh : Nat → String) (amount : Int)
    (h5 : 5000 ≤ amount) (h10 : amount ≤ 10000) :
    approveTransfer (seededWorld fresh) "customer1" "customer2" amount =
      (seededWorld fresh, .insufficientFunds) := by
  rw [approveTransfer_eq_transferMoney]
  exact transferMoney_insufficient _ _ _ _ 1500 rfl (by omega)

theorem C10_approve_always_fails_witness :
    approveTransfer (seededWorld (fun _ => "S")) "customer1" "customer2" 5000 =
      (seededWorld (fun _ => "S"), .insufficientFunds) :=
  C10_approve_always_fails (fun _ => "S") 5000 (by norm_num) (by norm_num)

/-! ## Claim C4 -/

/-- C4: an unknown username or a wrong password makes login fail with
invalid credentials whatever the OTP verifier would answer, and when both
match, a failing OTP verification on that account's secret yields the
invalid-OTP failure. -/
theorem C4_login_errors (users : Store) (u p c : String) :
    (findUser users u = none → ∀ vf, login users u p c vf = .invalidCredentials) ∧
    (∀ a, findUser users u = some a → p ≠ a.password →
      ∀ vf, login users u p c vf = .invalidCredentials) ∧
    (∀ a s vf, findUser users u = some a → p = a.password → a.secret = some s →
      vf s c = false → login users u p c vf = .invalidOTP) := by
  refine ⟨?_, ?_, ?_⟩
  · intro h vf
    simp [login, h]
  · intro a h hne vf
    simp [login, h, hne]
  · intro a s vf h hpw hsec hvf
    simp [login, h, hpw, hsec, hvf]

theorem C4_login_errors_witness :
    login (defaultUsers "SA" "SB" "SC") "ghost" "x" "123456" (fun _ _ => true) =
      .invalidCredentials ∧
    login (defaultUsers "SA" "SB" "SC") "customer1" "wrong" "123456" (fun _ _ => true) =
      .invalidCredentials ∧
    login (defaultUsers "SA" "SB" "SC") "customer1" "secure123" "123456" (fun _ _ => false) =
      .invalidOTP :=
  ⟨(C4_login_errors (defaultUsers "SA" "SB" "SC") "ghost" "x" "123456").1 (by decide) _,
   (C4_login_errors (defaultUsers "SA" "SB" "SC") "customer1" "wrong" "123456").2.1
     ⟨"secure123", "Customer", some 1500, some "SA"⟩ (by decide) (by decide) _,
   (C4_login_errors (defaultUsers "SA" "SB" "SC") "customer1" "secure123" "123456").2.2
     ⟨"secure123", "Customer", some 1500, some "SA"⟩ "SA" (fun _ _ => false)
     (by decide) rfl rfl rfl⟩

/-! ## Claim C5 -/

theorem backfill_findUser (fresh : Nat → String) (users : Store) (i : Nat)
    (u : String) (a : Account) (s : String)
    (hfind : findUser users u = some a) (hsec : a.secret = some s) :
    findUser (backfill fresh users i).1 u = some a := by
  induction users generalizing i with
  | nil => simp [findUser] at hfind
  | cons p rest ih =>
    obtain ⟨k, a0⟩ := p
    rw [findUser_cons] at hfind
    by_cases hk : k = u
    · rw [if_pos hk] at hfind
      obtain rfl : a0 = a := by injection hfind
      simp [backfill, hsec, findUser_cons, if_pos hk]
    · rw [if_neg hk] at hfind
      cases hs0 : a0.secret with
      | some s0 => simp [backfill, hs0, findUser_cons, hk, ih i hfind]
      | none => simp [backfill, hs0, findUser_cons, hk, ih (i + 1) hfind]

/-- C5: a login interaction reloads the store from the persisted file, so
a successful login returns the username together with the role the
persisted entry carries at that moment, whatever it has been changed to
since the store was first created. -/
theorem C5_role_read_fresh (users : Store) (fresh : Nat → String)
    (u p c : String) (a : Account) (s : String) (vf : String → String → Bool)
    (hfind : findUser users u = some a) (hsec : a.secret = some s)
    (hpw : p = a.password) (hotp : vf s c = true) :
    loginInteraction (.stored users) fresh u p c vf = .success u a.role := by
  unfold loginInteraction
  have h1 : (load_users (.stored users) fresh).1 = (backfill fresh users 0).1 := rfl
  rw [h1]
  have h2 := backfill_findUser fresh users 0 u a s hfind hsec
  simp [login, h2, hpw, hsec, hotp]

theorem C5_role_read_fresh_witness :
    loginInteraction (.stored alteredStore) (fun _ => "N") "customer1" "secure123"
      "000000" (fun _ _ => true) = .success "customer1" "Auditor" :=
  C5_role_read_fresh alteredStore (fun _ => "N") "customer1" "secure123" "000000"
    ⟨"secure123", "Auditor", some 1500, some "SA"⟩ "SA" (fun _ _ => true)
    (by decide) rfl rfl rfl

/-! ## Claim C8 -/

/-- C8: the provisioning URI is a deterministic function of the username
and the secret: equal inputs give character-for-character equal strings. -/
theorem C8_uri_deterministic (u1 u2 s1 s2 : String) (hu : u1 = u2) (hs : s1 = s2) :
    provisioning_uri u1 s1 = provisioning_uri u2 s2 := by
  rw [hu, hs]

theorem C8_uri_deterministic_witness :
    provisioning_uri "customer1" "JBSWY3DPEHPK3PXP" =
      provisioning_uri "customer1" "JBSWY3DPEHPK3PXP" :=
  C8_uri_deterministic "customer1" "customer1" "JBSWY3DPEHPK3PXP" "JBSWY3DPEHPK3PXP" rfl rfl


/-! ## Claim C1 -/

theorem sumCustomerBalances_setBalance (s : Store) (u : String) (v : Int) (a : Account)
    (hnd : (s.map Prod.fst).Nodup) (hfind : findUser s u = some a)
    (hrole : a.role = "Customer") :
    sumCustomerBalances (setBalance s u v) =
      sumCustomerBalances s - a.balance.getD 0 + v := by
  induction s with
  | nil => simp [findUser] at hfind
  | cons p rest ih =>
    obtain ⟨k, a0⟩ := p
    simp only [List.map_cons, List.nodup_cons] at hnd
    rw [findUser_cons] at hfind
    by_cases hk : k = u
    · rw [if_pos hk] at hfind
      have ha0 : a0 = a := Option.some_inj.mp hfind
      subst hk
      rw [setBalance_cons, if_pos rfl, sumCustomerBalances_cons, sumCustomerBalances_cons,
        setBalance_not_mem rest k v hnd.1, ha0]
      have hrole2 : ({ a with balance := some v } : Account).role = "Customer" := hrole
      rw [if_pos hrole2, if_pos hrole]
      simp only [Option.getD_some]
      ring
    · rw [if_neg hk] at hfind
      rw [setBalance_cons, if_neg hk, sumCustomerBalances_cons, sumCustomerBalances_cons,
        ih hnd.2 hfind]
      ring

theorem transferMoney_ok_conserves (w w1 : World) (sndr rcpt : String) (amount : Int)
    (hnd : (w.mem.map Prod.fst).Nodup)
    (hsucc : transferMoney w sndr rcpt amount = (w1, .ok))
    (hs : isCustomer w.mem sndr)
    (hr : isCustomer w.mem rcpt) :
    sumCustomerBalances w1.mem = sumCustomerBalances w.mem ∧
    w1.mem.map Prod.fst = w.mem.map Prod.fst := by
  cases hb : getBalance w.mem sndr with
  | none =>
    rw [transferMoney_no_sender w sndr rcpt amount hb] at hsucc
    exact absurd hsucc (by simp)
  | some b =>
    by_cases hle : amount ≤ b
    · cases hb2 : getBalance (setBalance w.mem sndr (b - amount)) rcpt with
      | none =>
        rw [transferMoney_no_recipient w sndr rcpt amount b hb hle hb2] at hsucc
        exact absurd hsucc (by simp)
      | some b2 =>
        rw [transferMoney_success w sndr rcpt amount b b2 hb hle hb2] at hsucc
        injection hsucc with hw1 hres
        subst hw1
        obtain ⟨a, hfa, hrole⟩ := hs
        have hba : a.balance = some b := by simpa [getBalance, hfa] using hb
        obtain ⟨a2, hfa2, hba2⟩ :=
          (getBalance_eq_some (setBalance w.mem sndr (b - amount)) rcpt b2).mp hb2
        have hnd1 : ((setBalance w.mem sndr (b - amount)).map Prod.fst).Nodup := by
          rw [setBalance_keys]; exact hnd
        have hrole2 : a2.role = "Customer" := by
          by_cases hru : rcpt = sndr
          · subst hru
            rw [findUser_setBalance_eq, hfa] at hfa2
            rw [← Option.some_inj.mp hfa2]
            exact hrole
          · obtain ⟨ar, har, hroler⟩ := hr
            rw [findUser_setBalance_ne w.mem sndr rcpt (b - amount) hru, har] at hfa2
            rw [← Option.some_inj.mp hfa2]
            exact hroler
        have hsum1 : sumCustomerBalances (setBalance w.mem sndr (b - amount)) =
            sumCustomerBalances w.mem - b + (b - amount) := by
          rw [sumCustomerBalances_setBalance w.mem sndr (b - amount) a hnd hfa hrole, hba]
          rfl
        have hsum2 : sumCustomerBalances
              (setBalance (setBalance w.mem sndr (b - amount)) rcpt (b2 + amount)) =
            sumCustomerBalances (setBalance w.mem sndr (b - amount)) - b2 + (b2 + amount) := by
          rw [sumCustomerBalances_setBalance _ rcpt (b2 + amount) a2 hnd1 hfa2 hrole2, hba2]
          rfl
        constructor
        · show sumCustomerBalances
              (setBalance (setBalance w.mem sndr (b - amount)) rcpt (b2 + amount)) =
            sumCustomerBalances w.mem
          rw [hsum2, hsum1]
          ring
        · show (setBalance (setBalance w.mem sndr (b - amount)) rcpt
              (b2 + amount)).map Prod.fst = w.mem.map Prod.fst
          rw [setBalance_keys, setBalance_keys]
    · rw [transferMoney_insufficient w sndr rcpt amount b hb hle] at hsucc
      exact absurd hsucc (by simp)

theorem applyOp_ok_conserves (w w1 : World) (op : Op)
    (hnd : (w.mem.map Prod.fst).Nodup)
    (hsucc : applyOp w op = (w1, .ok))
    (hs : isCustomer w.mem op.parties.1)
    (hr : isCustomer w.mem op.parties.2) :
    sumCustomerBalances w1.mem = sumCustomerBalances w.mem ∧
    w1.mem.map Prod.fst = w.mem.map Prod.fst := by
  cases op with
  | transfer s r a => exact transferMoney_ok_conserves w w1 s r a hnd hsucc hs hr
  | approve s d a =>
    rw [applyOp, approveTransfer_eq_transferMoney] at hsucc
    exact transferMoney_ok_conserves w w1 s d a hnd hsucc hs hr

/-- C1: across any run of successful transfer and approve operations
between Customer accounts, the sum of all Customer balances is conserved:
every successful operation debits the sender and credits the recipient by
exactly the same amount. -/
theorem C1_conservation (w w2 : World) (ops : List Op)
    (hrun : RunOk w ops w2) (hnd : (w.mem.map Prod.fst).Nodup) :
    sumCustomerBalances w2.mem = sumCustomerBalances w.mem := by
  induction hrun with
  | nil w => rfl
  | cons w w1 w2 op ops hsucc hsender hrecip hrest ih =>
    obtain ⟨hsum, hkeys⟩ := applyOp_ok_conserves w w1 op hnd hsucc hsender hrecip
    rw [ih (by rw [hkeys]; exact hnd), hsum]

theorem C1_conservation_witness :
    sumCustomerBalances w2x.mem = sumCustomerBalances w0x.mem :=
  C1_conservation w0x w2x
    [Op.transfer "customer1" "customer2" 500, Op.approve "customer2" "customer1" 300]
    (RunOk.cons w0x w1x w2x (Op.transfer "customer1" "customer2" 500)
      [Op.approve "customer2" "customer1" 300] (by decide)
      ⟨⟨"secure123", "Customer", some 1500, some "SEEDA"⟩, by decide⟩
      ⟨⟨"wallet321", "Customer", some 3200, some "SEEDA"⟩, by decide⟩
      (RunOk.cons w1x w2x w2x (Op.approve "customer2" "customer1" 300) [] (by decide)
        ⟨⟨"wallet321", "Customer", some 3700, some "SEEDA"⟩, by decide⟩
        ⟨⟨"secure123", "Customer", some 1000, some "SEEDA"⟩, by decide⟩
        (RunOk.nil w2x)))
    (by decide)

/-! ## Claim C9 -/

theorem nonNeg_setBalance (s : Store) (u : String) (v : Int)
    (hnn : NonNeg s) (hv : 0 ≤ v) : NonNeg (setBalance s u v) := by
  intro p hp hrole b hb
  rw [setBalance, List.mem_map] at hp
  obtain ⟨q, hq, rfl⟩ := hp
  by_cases hk : q.1 = u
  · simp only [if_pos hk] at hrole hb
    obtain rfl : v = b := Option.some_inj.mp hb
    exact hv
  · simp only [if_neg hk] at hrole hb
    exact hnn q hq hrole b hb

theorem nonNeg_defaultUsers (s1 s2 s3 : String) : NonNeg (defaultUsers s1 s2 s3) := by
  intro p hp hrole b hb
  simp only [defaultUsers, List.mem_cons, List.not_mem_nil, or_false] at hp
  rcases hp with rfl | rfl | rfl
  · obtain rfl : (1500 : Int) = b := Option.some_inj.mp hb
    omega
  · obtain rfl : (3200 : Int) = b := Option.some_inj.mp hb
    omega
  · exact absurd hb (by simp)

theorem findUser_of_mem_nodup (s : Store) (q : String × Account) (u : String)
    (hnd : (s.map Prod.fst).Nodup) (hq : q ∈ s) (hu : q.1 = u) :
    findUser s u = some q.2 := by
  induction s with
  | nil => exact absurd hq (List.not_mem_nil q)
  | cons p rest ih =>
    obtain ⟨k, a⟩ := p
    simp only [List.map_cons, List.nodup_cons] at hnd
    rcases List.mem_cons.mp hq with rfl | hq2
    · rw [findUser_cons, if_pos hu]
    · have hku : k ≠ u := by
        intro hk
        exact hnd.1 (by rw [hk, ← hu]; exact List.mem_map_of_mem Prod.fst hq2)
      rw [findUser_cons, if_neg hku]
      exact ih hnd.2 hq2

theorem nonNeg_setBalance_nodup (s : Store) (u : String) (v : Int) (a : Account)
    (hnd : (s.map Prod.fst).Nodup) (hnn : NonNeg s)
    (hfind : findUser s u = some a) (hv : a.role = "Customer" → 0 ≤ v) :
    NonNeg (setBalance s u v) := by
  intro p hp hrole b hb
  rw [setBalance, List.mem_map] at hp
  obtain ⟨q, hq, rfl⟩ := hp
  by_cases hk : q.1 = u
  · have hfq : findUser s u = some q.2 := findUser_of_mem_nodup s q u hnd hq hk
    have haq : a = q.2 := Option.some_inj.mp (hfind.symm.trans hfq)
    simp only [if_pos hk] at hrole hb
    obtain rfl : v = b := Option.some_inj.mp hb
    exact hv (by rw [haq]; exact hrole)
  · simp only [if_neg hk] at hrole hb
    exact hnn q hq hrole b hb

/-- C9: on a store with unique usernames (a dict) in which every Customer
balance is non-negative, any transfer or approve operation with an amount
of at least 1 — whether it succeeds, fails on funds, or raises — leaves
every Customer balance non-negative, because a debit only happens when
the sender balance is at least the amount. -/
theorem C9_nonneg_preserved (w : World) (sndr rcpt : String) (amount : Int)
    (hnn : NonNeg w.mem) (hamt : 1 ≤ amount)
    (hnd : (w.mem.map Prod.fst).Nodup) :
    NonNeg (transferMoney w sndr rcpt amount).1.mem ∧
    NonNeg (approveTransfer w sndr rcpt amount).1.mem := by
  rw [approveTransfer_eq_transferMoney]
  have main : NonNeg (transferMoney w sndr rcpt amount).1.mem := by
    cases hb : getBalance w.mem sndr with
    | none =>
      rw [transferMoney_no_sender w sndr rcpt amount hb]
      exact hnn
    | some b =>
      by_cases hle : amount ≤ b
      · have hnn1 : NonNeg (setBalance w.mem sndr (b - amount)) :=
          nonNeg_setBalance w.mem sndr (b - amount) hnn (by omega)
        have hnd1 : ((setBalance w.mem sndr (b - amount)).map Prod.fst).Nodup := by
          rw [setBalance_keys]; exact hnd
        cases hb2 : getBalance (setBalance w.mem sndr (b - amount)) rcpt with
        | none =>
          rw [transferMoney_no_recipient w sndr rcpt amount b hb hle hb2]
          exact hnn1
        | some b2 =>
          rw [transferMoney_success w sndr rcpt amount b b2 hb hle hb2]
          obtain ⟨a2, hfa2, hba2⟩ :=
            (getBalance_eq_some (setBalance w.mem sndr (b - amount)) rcpt b2).mp hb2
          refine nonNeg_setBalance_nodup _ rcpt (b2 + amount) a2 hnd1 hnn1 hfa2 ?_
          intro hrole2
          have hb2nn : 0 ≤ b2 :=
            hnn1 (rcpt, a2) (findUser_mem _ rcpt a2 hfa2) hrole2 b2 hba2
          omega
      · rw [transferMoney_insufficient w sndr rcpt amount b hb hle]
        exact hnn
  exact ⟨main, main⟩

theorem C9_nonneg_preserved_witness :
    NonNeg (transferMoney w0x "customer1" "customer2" 700).1.mem ∧
    NonNeg (approveTransfer w0x "customer1" "customer2" 700).1.mem :=
  C9_nonneg_preserved w0x "customer1" "customer2" 700
    (show NonNeg w0x.mem from nonNeg_defaultUsers "SEEDA" "SEEDA" "SEEDA")
    (by norm_num)
    (by decide)

/-! ## Claim C7 -/

theorem backfill_length (fresh : Nat → String) (users : Store) (i : Nat) :
    (backfill fresh users i).1.length = users.length := by
  induction users generalizing i with
  | nil => rfl
  | cons p rest ih =>
    obtain ⟨k, a⟩ := p
    cases hs : a.secret with
    | some s => simp [backfill, hs, ih]
    | none => simp [backfill, hs, ih]

theorem missingBefore_cons (k : String) (a : Account) (rest : Store) (i : Nat) :
    missingBefore ((k, a) :: rest) (i + 1) =
      (if a.secret.isNone then 1 else 0) + missingBefore rest i := by
  cases hs : a.secret with
  | some s => simp [missingBefore, List.take_succ_cons, List.filter_cons, hs]
  | none =>
    simp only [missingBefore, List.take_succ_cons, List.filter_cons, hs, Option.isNone_none,
      if_true, List.length_cons]
    omega

theorem backfill_getD (fresh : Nat → String) (users : Store) (i0 i : Nat)
    (h : i < users.length) :
    ((backfill fresh users i0).1.getD i dummyAcc).1 = (users.getD i dummyAcc).1 ∧
    ((backfill fresh users i0).1.getD i dummyAcc).2.password =
      (users.getD i dummyAcc).2.password ∧
    ((backfill fresh users i0).1.getD i dummyAcc).2.role =
      (users.getD i dummyAcc).2.role ∧
    ((backfill fresh users i0).1.getD i dummyAcc).2.balance =
      (users.getD i dummyAcc).2.balance ∧
    ((users.getD i dummyAcc).2.secret = none →
      ((backfill fresh users i0).1.getD i dummyAcc).2.secret =
        some (fresh (i0 + missingBefore users i))) ∧
    (∀ s, (users.getD i dummyAcc).2.secret = some s →
      ((backfill fresh users i0).1.getD i dummyAcc).2.secret = some s) := by
  induction users generalizing i0 i with
  | nil => simp at h
  | cons p rest ih =>
    obtain ⟨k, a⟩ := p
    cases i with
    | zero =>
      cases hs : a.secret with
      | some s => simp [backfill, hs]
      | none => simp [backfill, hs, missingBefore]
    | succ j =>
      have hj : j < rest.length := by
        simp only [List.length_cons] at h
        omega
      cases hs : a.secret with
      | some s =>
        have ihj := ih i0 j hj
        simpa [backfill, hs, missingBefore_cons] using ihj
      | none =>
        have ihj := ih (i0 + 1) j hj
        have harith : i0 + (1 + missingBefore rest j) = i0 + 1 + missingBefore rest j := by
          omega
        simpa [backfill, hs, missingBefore_cons, harith] using ihj

theorem backfill_changed (fresh : Nat → String) (users : Store) (i : Nat) :
    (backfill fresh users i).2 = true ↔ ∃ p ∈ users, p.2.secret = none := by
  induction users generalizing i with
  | nil => simp [backfill]
  | cons p rest ih =>
    obtain ⟨k, a⟩ := p
    cases hs : a.secret with
    | some s => simp [backfill, hs, ih i]
    | none => simp [backfill, hs]

/-- C7: loading a present, parseable store backfills exactly the entries
lacking an OTP seed — each such entry receives the next freshly generated
seed while its key, password, role and balance, and every other entry,
are unchanged — and when at least one entry was missing a seed the
patched mapping is persisted before load returns. -/
theorem C7_backfill_frame (fresh : Nat → String) (users : Store) :
    (load_users (.stored users) fresh).1.length = users.length ∧
    (∀ i, i < users.length →
      (((load_users (.stored users) fresh).1.getD i dummyAcc).1 =
          (users.getD i dummyAcc).1 ∧
        ((load_users (.stored users) fresh).1.getD i dummyAcc).2.password =
          (users.getD i dummyAcc).2.password ∧
        ((load_users (.stored users) fresh).1.getD i dummyAcc).2.role =
          (users.getD i dummyAcc).2.role ∧
        ((load_users (.stored users) fresh).1.getD i dummyAcc).2.balance =
          (users.getD i dummyAcc).2.balance ∧
        ((users.getD i dummyAcc).2.secret = none →
          ((load_users (.stored users) fresh).1.getD i dummyAcc).2.secret =
            some (fresh (missingBefore users i))) ∧
        (∀ s, (users.getD i dummyAcc).2.secret = some s →
          ((load_users (.stored users) fresh).1.getD i dummyAcc).2.secret = some s))) ∧
    ((∃ p ∈ users, p.2.secret = none) →
      (load_users (.stored users) fresh).2 =
        .stored (load_users (.stored users) fresh).1) := by
  have hload1 : (load_users (.stored users) fresh).1 = (backfill fresh users 0).1 := rfl
  refine ⟨by rw [hload1]; exact backfill_length fresh users 0, ?_, ?_⟩
  · intro i hi
    have h := backfill_getD fresh users 0 i hi
    rw [hload1]
    simpa using h
  · intro hex
    have hch : (backfill fresh users 0).2 = true := (backfill_changed fresh users 0).mpr hex
    have heq : load_users (.stored users) fresh =
        ((backfill fresh users 0).1,
          if (backfill fresh users 0).2 then save_users (backfill fresh users 0).1
          else .stored users) := rfl
    rw [heq, hch]
    simp [save_users]

theorem C7_backfill_frame_witness :
    ((load_users (.stored demoStore) freshd).1.getD 0 dummyAcc).2.secret =
      some "NEWSEED" ∧
    ((load_users (.stored demoStore) freshd).1.getD 1 dummyAcc).2.secret =
      some "KEEP" ∧
    ((load_users (.stored demoStore) freshd).1.getD 0 dummyAcc).2.balance = some 10 ∧
    (load_users (.stored demoStore) freshd).2 =
      .stored (load_users (.stored demoStore) freshd).1 := by
  have h := C7_backfill_frame freshd demoStore
  refine ⟨?_, ?_, ?_, ?_⟩
  · exact (h.2.1 0 (by decide)).2.2.2.2.1 rfl
  · exact (h.2.1 1 (by decide)).2.2.2.2.2 "KEEP" rfl
  · exact (h.2.1 0 (by decide)).2.2.2.1
  · exact h.2.2 ⟨("alice", ⟨"pw1", "Customer", some 10, none⟩), by decide, rfl⟩

/-! ## Claim C6 -/

set_option maxHeartbeats 4000000 in
/-- C6 counterexample: two distinct OTP seeds, with distinct decoded key
bytes, whose 6-digit codes collide at unix time 1700000000 (time step
56666666), so the code computed from the first account's seed for the
current time step verifies successfully against the second account's
seed with drift window 1 — refuting the claim that cross-account
submissions never verify. -/
theorem C6_cross_account_counterexample :
    ("QCHDTEQVYRKI5HIU" : String) ≠ "H6ZIDLOIPDEPFVFQ" ∧
    byteSecret "QCHDTEQVYRKI5HIU" ≠ byteSecret "H6ZIDLOIPDEPFVFQ" ∧
    totpVerify "H6ZIDLOIPDEPFVFQ" (totpCode "QCHDTEQVYRKI5HIU" 1700000000)
      1700000000 = true := by
  refine ⟨by decide, by decide, by decide⟩

/-- C6 amended: a code computed from one account's seed verifies against
another account's seed exactly when it collides with one of the three
codes of that account's drift window, so whenever the 6-digit codes
differ the cross-account verification fails; the counterexample shows
the collision case does occur for distinct seeds. -/
theorem C6_cross_account_no_collision (s1 s2 : String) (t : Nat)
    (h1 : pad6 (hotp6 (byteSecret s2) (t / 30 - 1)) ≠ totpCode s1 t)
    (h2 : pad6 (hotp6 (byteSecret s2) (t / 30)) ≠ totpCode s1 t)
    (h3 : pad6 (hotp6 (byteSecret s2) (t / 30 + 1)) ≠ totpCode s1 t) :
    totpVerify s2 (totpCode s1 t) t = false := by
  have g1 : (totpCode s1 t == pad6 (hotp6 (byteSecret s2) (t / 30 - 1))) = false :=
    beq_eq_false_iff_ne.mpr (fun h => h1 h.symm)
  have g2 : (totpCode s1 t == pad6 (hotp6 (byteSecret s2) (t / 30))) = false :=
    beq_eq_false_iff_ne.mpr (fun h => h2 h.symm)
  have g3 : (totpCode s1 t == pad6 (hotp6 (byteSecret s2) (t / 30 + 1))) = false :=
    beq_eq_false_iff_ne.mpr (fun h => h3 h.symm)
  simp [totpVerify, g1, g2, g3]

set_option maxHeartbeats 4000000 in
theorem C6_cross_account_no_collision_witness :
    totpVerify "JBSWY3DPEHPK3PXP" (totpCode "GEZDGNBVGY3TQOJQ" 59) 59 = false :=
  C6_cross_account_no_collision "GEZDGNBVGY3TQOJQ" "JBSWY3DPEHPK3PXP" 59
    (by decide) (by decide) (by decide)
